import Mathlib

/-
Shallow embedding of `src/betting_system.py` (class `BettingSystem`).

Pure Python string/set manipulation becomes Lean functions on `String`,
`List` and `Finset`; Python exceptions become `Except PyError`; the
interactions with the outside world (the yt-dlp resolver, the ffmpeg
subprocess, the Google STT service, websocket clients) are modelled by
explicit outcome parameters, and the observable side effects of `start`
and `stop` are recorded as lists of `SysAction` values.
-/

/-- Python exception values that the embedded code can raise or catch. -/
inductive PyError where
  | keyError
  | sendError
  | timeoutError
  | runtimeError (msg : String)
  | other (msg : String)
deriving DecidableEq

/-! ## Keyword matching (`__init__` lines 30-31, `_find_keywords` lines 180-187)

String operations are embedded at the character-list level: Python
`s.replace('.', '')` with a one-character pattern and empty replacement
removes every occurrence of that character, i.e. it is a character filter,
and `s.lower()` lowercases character by character. -/

/-- Python `s.lower()`. -/
def pyLower (s : String) : String :=
  String.mk (s.data.map Char.toLower)

/-- The two `.replace` calls of `_find_keywords`: `replace('.', '')` then
`replace(',', '')`, each removing every occurrence of its character. -/
def stripPunct (s : String) : String :=
  String.mk ((s.data.filter (fun c => c ≠ '.')).filter (fun c => c ≠ ','))

/-- `text.lower().replace('.', '').replace(',', '')` from `_find_keywords`. -/
def normalizeText (text : String) : String :=
  stripPunct (pyLower text)

/-- Tokenizer for Python `str.split()` with no argument: the maximal
nonempty runs of non-whitespace characters, in order. `acc` holds the
characters of the current run, reversed. -/
def pySplitAux : List Char → List Char → List String
  | [], acc => if acc = [] then [] else [String.mk acc.reverse]
  | c :: rest, acc =>
    if c.isWhitespace then
      if acc = [] then pySplitAux rest []
      else String.mk acc.reverse :: pySplitAux rest []
    else pySplitAux rest (c :: acc)

/-- Python `s.split()`. -/
def pySplit (s : String) : List String :=
  pySplitAux s.data []

/-- `text.lower().replace('.', '').replace(',', '').split()` from
`_find_keywords`. -/
def normalizeWords (text : String) : List String :=
  pySplit (normalizeText text)

/-- Python sets of strings are modelled as duplicate-free lists; `pyDedupAux l seen`
keeps the first occurrence of each element of `l` not already in `seen`. -/
def pyDedupAux : List String → List String → List String
  | [], _ => []
  | x :: xs, seen =>
    if x ∈ seen then pyDedupAux xs seen
    else x :: pyDedupAux xs (x :: seen)

/-- Python `list(set(l))` for a list of strings: the distinct elements
(the order a Python set iterates in is unspecified; one representative
order is used). -/
def pyDedup (l : List String) : List String :=
  pyDedupAux l []

/-- `self.keywords = set(kw.lower() for kw in keywords)` from `__init__`. -/
def mkKeywordSet (keywords : List String) : List String :=
  pyDedup (keywords.map pyLower)

/-- `_find_keywords`: collect the normalized words that are members of
`self.keywords`, then `list(set(found))` (deduplicate). -/
def _find_keywords (keywords : List String) (text : String) : List String :=
  pyDedup ((normalizeWords text).filter (fun w => decide (w ∈ keywords)))

/-! ## STT response processing (`_process_stt_response` lines 153-178) -/

/-- One entry of `result.alternatives` (only `transcript` is read). -/
structure SpeechRecognitionAlternative where
  transcript : String
deriving DecidableEq

/-- One entry of `response.results`. -/
structure StreamingRecognitionResult where
  alternatives : List SpeechRecognitionAlternative
  is_final : Bool
deriving DecidableEq

/-- The JSON message built by `_process_stt_response` and handed to
`_broadcast` via `asyncio.create_task`. The `type` field is always the
literal `"transcription"`; `timestamp` is the wall-clock reading
`time.time()`, supplied as a parameter. -/
structure Message where
  type : String
  timestamp : Nat
  text : String
  keywords : List String
  is_final : Bool
deriving DecidableEq

/-- `_process_stt_response`: loop over `response.results`, skip results with
no alternatives, and for each remaining result submit one broadcast of a
message built from the top alternative. Returns the broadcast messages
submitted, in order. -/
def _process_stt_response (keywords : List String) (now : Nat) :
    List StreamingRecognitionResult → List Message
  | [] => []
  | r :: rest =>
    match r.alternatives with
    | [] => _process_stt_response keywords now rest
    | a :: _ =>
      { type := "transcription"
        timestamp := now
        text := a.transcript
        keywords := _find_keywords keywords a.transcript
        is_final := r.is_final } :: _process_stt_response keywords now rest

/-! ## Subscriber registry and broadcast
(`clients` line 43, `_websocket_handler` lines 189-197, `_broadcast` lines
199-206)

A connected websocket client is identified by a numeric handle; the Python
`set` of clients is a duplicate-free list. `_websocket_handler` performs
`self.clients.add(websocket)` on connect and `self.clients.remove(websocket)`
on disconnect; Python `set.add` is a no-op on a member and `set.remove`
raises `KeyError` on a non-member. -/

/-- Python `self.clients.add(websocket)`. -/
def addClient (clients : List Nat) (c : Nat) : List Nat :=
  if c ∈ clients then clients else c :: clients

/-- Python `self.clients.remove(websocket)`: raises `KeyError` when the
element is not a member. -/
def removeClient (clients : List Nat) (c : Nat) : Except PyError (List Nat) :=
  if c ∈ clients then .ok (clients.erase c) else .error .keyError

/-- One `client.send(json.dumps(message))` task: the delivery outcome is
determined by the environment `fails` (a closed channel or send error). -/
def sendToClient (fails : Nat → Bool) (payload : String) (c : Nat) :
    Except PyError Unit :=
  if fails c then .error .sendError else .ok ()

/-- A crude stand-in for `json.dumps(message)`; `_broadcast` only passes the
serialized text to `client.send`, so its exact shape is irrelevant. -/
def dumpsMessage (m : Message) : String :=
  "\x7b\"type\": \"" ++ m.type ++ "\", \"text\": \"" ++ m.text ++ "\"\x7d"

/-- `_broadcast`: with no clients return immediately; otherwise run one send
task per client and gather the outcomes with `return_exceptions=True`, so
failures are collected rather than raised. The client set is returned
unchanged — `_broadcast` itself never registers or unregisters anyone. -/
def _broadcast (clients : List Nat) (fails : Nat → Bool) (message : Message) :
    List Nat × List (Except PyError Unit) :=
  if clients = [] then (clients, [])
  else (clients, clients.map (sendToClient fails (dumpsMessage message)))

/-- A send outcome counts as delivered when it is `ok`. -/
def isDelivered : Except PyError Unit → Bool
  | .ok _ => true
  | .error _ => false

/-! ## Streaming configuration and request sequence
(`_get_streaming_config` lines 45-57, `request_generator` lines 129-142) -/

/-- `speech.RecognitionConfig.AudioEncoding` (only the constructors the
model distinguishes). -/
inductive AudioEncoding where
  | LINEAR16
  | MULAW
deriving DecidableEq

/-- The fields of `speech.RecognitionConfig` set by `_get_streaming_config`. -/
structure RecognitionConfig where
  encoding : AudioEncoding
  sample_rate_hertz : Nat
  language_code : String
  enable_automatic_punctuation : Bool
  model : String
deriving DecidableEq

/-- `speech.StreamingRecognitionConfig`. -/
structure StreamingRecognitionConfig where
  config : RecognitionConfig
  interim_results : Bool
deriving DecidableEq

/-- `_get_streaming_config`. -/
def _get_streaming_config : StreamingRecognitionConfig :=
  { config :=
      { encoding := .LINEAR16
        sample_rate_hertz := 16000
        language_code := "en-US"
        enable_automatic_punctuation := true
        model := "video" }
    interim_results := true }

/-- `speech.StreamingRecognizeRequest`: a proto oneof — a request carries
either the streaming configuration or an audio payload, never both. Audio
bytes are modelled as lists of naturals. -/
inductive StreamingRecognizeRequest where
  | streaming_config (c : StreamingRecognitionConfig)
  | audio_content (chunk : List Nat)
deriving DecidableEq

/-- The audio half of `request_generator`: read chunks while running and
yield each as an audio request, stopping at the first empty read
(`if not chunk: break`). `chunks` is the sequence of reads performed before
the loop is exited by the running flag or cancellation. -/
def audioRequests : List (List Nat) → List StreamingRecognizeRequest
  | [] => []
  | c :: rest =>
    if c = [] then [] else .audio_content c :: audioRequests rest

/-- `request_generator`: the configuration request first, then audio. -/
def request_generator (chunks : List (List Nat)) :
    List StreamingRecognizeRequest :=
  .streaming_config _get_streaming_config :: audioRequests chunks

/-! ## Stream URL resolution (`_get_stream_url` lines 86-107) -/

/-- Python `s.strip()`: drop leading and trailing whitespace. -/
def pyStrip (s : String) : String :=
  String.mk
    (((s.data.dropWhile Char.isWhitespace).reverse.dropWhile
      Char.isWhitespace).reverse)

/-- Python `s.split('\n')` on the character list: split at every newline,
keeping empty pieces; never returns an empty list. -/
def pySplitNlAux : List Char → List Char → List String
  | [], acc => [String.mk acc.reverse]
  | c :: rest, acc =>
    if c = '\n' then String.mk acc.reverse :: pySplitNlAux rest []
    else pySplitNlAux rest (c :: acc)

/-- Python `s.split('\n')[-1]`: the last line (the split list is never
empty, so the default is never used). -/
def lastLine (s : String) : String :=
  (pySplitNlAux s.data []).getLastD ""

/-- The result of running the yt-dlp subprocess: it can time out (the
`asyncio.wait_for` 15s limit), raise some other exception, or complete
with an exit status, stdout and stderr. -/
inductive YtdlpOutcome where
  | timeout
  | raised (e : String)
  | completed (returncode : Int) (stdout : String) (stderr : String)
deriving DecidableEq

/-- The `try` body of `_get_stream_url`: `TimeoutError` on timeout, any
other exception re-raised, else `None` for a nonzero exit status and the
last stripped stdout line on success. -/
def getStreamUrlBody (o : YtdlpOutcome) : Except PyError (Option String) :=
  match o with
  | .timeout => .error .timeoutError
  | .raised e => .error (.other e)
  | .completed rc out _ =>
    if rc ≠ 0 then .ok none
    else .ok (some (lastLine (pyStrip out)))

/-- `_get_stream_url`: the two `except` clauses (`asyncio.TimeoutError` and
the catch-all `Exception`) both turn any raised exception into `None`. -/
def _get_stream_url (o : YtdlpOutcome) : Option String :=
  match getStreamUrlBody o with
  | .ok v => v
  | .error .timeoutError => none
  | .error _ => none

/-! ## Lifecycle: `stop` (lines 208-213) and `start` (lines 59-84),
with `_start_ffmpeg_process` (lines 109-124)

The mutable attributes of the `BettingSystem` instance form `SystemState`;
the observable side effects of a run are recorded as `SysAction` values.
`terminate()` only sends a signal — it does not synchronously change the
process's `returncode`, which is updated when the child is reaped. -/

/-- The ffmpeg subprocess handle: only its `returncode` attribute is read. -/
structure FfmpegProcess where
  returncode : Option Int
deriving DecidableEq

/-- The mutable state of the `BettingSystem` instance. -/
structure SystemState where
  is_running : Bool
  ffmpeg_process : Option FfmpegProcess
  clients : List Nat
deriving DecidableEq

/-- Observable side effects of `start`/`stop`. -/
inductive SysAction where
  | serve
  | resolve_url
  | spawn_ffmpeg
  | open_session
  | log_error (e : PyError)
  | terminate_ffmpeg
  | close_server
deriving DecidableEq

/-- `stop`: clear the running flag, and call `terminate()` only when an
ffmpeg process exists whose `returncode` is `None`. -/
def stop (s : SystemState) : SystemState × List SysAction :=
  let s2 := { s with is_running := false }
  match s.ffmpeg_process with
  | none => (s2, [])
  | some p =>
    if p.returncode = none then (s2, [.terminate_ffmpeg]) else (s2, [])

/-- The outcome of `_start_ffmpeg_process`: spawning can raise, or the
process is created and after the two-second grace period its `returncode`
is observed (`None` means still alive). -/
inductive FfmpegOutcome where
  | spawnRaised (e : String)
  | spawned (rc_after_grace : Option Int) (stderr : String)
deriving DecidableEq

/-- `_start_ffmpeg_process`: assign `self.ffmpeg_process`, then raise
`RuntimeError` if the process has already exited after the grace period. -/
def _start_ffmpeg_process (s : SystemState) (o : FfmpegOutcome) :
    Except (PyError × SystemState) SystemState :=
  match o with
  | .spawnRaised e => .error (.other e, s)
  | .spawned rc err =>
    let s2 := { s with ffmpeg_process := some ⟨rc⟩ }
    match rc with
    | some _ => .error (.runtimeError ("FFmpeg failed to start: " ++ err), s2)
    | none => .ok s2

/-- The outcome of `_google_stt_stream` once entered: the streaming loop
either finishes or raises. -/
inductive SttOutcome where
  | completed
  | raised (e : String)
deriving DecidableEq

/-- All external outcomes a `start` run can encounter. -/
structure StartEnv where
  ytdlp : YtdlpOutcome
  ffmpeg : FfmpegOutcome
  stt : SttOutcome
deriving DecidableEq

/-- The `try` block of `start`: resolve the stream URL (raise `RuntimeError`
when that yields `None`), start ffmpeg, then run the STT stream. Returns
the block's outcome, the state after it, and the actions performed. -/
def startBody (s : SystemState) (env : StartEnv) :
    Except PyError Unit × SystemState × List SysAction :=
  match _get_stream_url env.ytdlp with
  | none => (.error (.runtimeError "Failed to get stream URL."), s, [.resolve_url])
  | some _ =>
    match _start_ffmpeg_process s env.ffmpeg with
    | .error (e, s2) => (.error e, s2, [.resolve_url, .spawn_ffmpeg])
    | .ok s2 =>
      match env.stt with
      | .raised e =>
        (.error (.other e), s2, [.resolve_url, .spawn_ffmpeg, .open_session])
      | .completed =>
        (.ok (), s2, [.resolve_url, .spawn_ffmpeg, .open_session])

/-- `start`: set the running flag and start the websocket server, run the
`try` block, log any exception it raised (`except Exception`), and in the
`finally` clause call `stop` and close the server. -/
def start (s : SystemState) (env : StartEnv) : SystemState × List SysAction :=
  let s1 := { s with is_running := true }
  match startBody s1 env with
  | (res, s2, acts) =>
    let errActs := match res with
      | .ok _ => ([] : List SysAction)
      | .error e => [SysAction.log_error e]
    ((stop s2).1,
      SysAction.serve :: acts ++ errActs ++ (stop s2).2 ++ [SysAction.close_server])

/-- Acquisition failure: the locator resolution yields nothing (error or
timeout), spawning the audio producer raises, or the producer has already
exited when checked after the grace period. -/
def acquisitionFails (env : StartEnv) : Prop :=
  _get_stream_url env.ytdlp = none ∨
    (∃ e, env.ffmpeg = .spawnRaised e) ∨
    (∃ rc err, env.ffmpeg = .spawned (some rc) err)

theorem mem_pyDedupAux (x : String) :
    ∀ (l seen : List String), x ∈ pyDedupAux l seen ↔ x ∈ l ∧ x ∉ seen := by
  intro l
  induction l with
  | nil => intro seen; simp [pyDedupAux]
  | cons y ys ih =>
    intro seen
    by_cases hy : y ∈ seen
    · simp only [pyDedupAux, if_pos hy, ih, List.mem_cons]
      constructor
      · tauto
      · rintro ⟨hx | hx, hns⟩
        · subst hx; exact absurd hy hns
        · exact ⟨hx, hns⟩
    · simp only [pyDedupAux, if_neg hy, List.mem_cons, ih]
      constructor
      · rintro (rfl | ⟨hx, hns⟩)
        · exact ⟨Or.inl rfl, hy⟩
        · exact ⟨Or.inr hx, fun hs => hns (Or.inr hs)⟩
      · rintro ⟨rfl | hx, hns⟩
        · exact Or.inl rfl
        · by_cases hxy : x = y
          · exact Or.inl hxy
          · exact Or.inr ⟨hx, fun hs => by
              rcases hs with h | h
              · exact hxy h
              · exact hns h⟩

theorem mem_pyDedup (x : String) (l : List String) : x ∈ pyDedup l ↔ x ∈ l := by
  simp [pyDedup, mem_pyDedupAux]

theorem nodup_pyDedupAux : ∀ (l seen : List String), (pyDedupAux l seen).Nodup := by
  intro l
  induction l with
  | nil => intro seen; simp [pyDedupAux]
  | cons y ys ih =>
    intro seen
    by_cases hy : y ∈ seen
    · simpa [pyDedupAux, if_pos hy] using ih seen
    · simp only [pyDedupAux, if_neg hy]
      refine List.nodup_cons.mpr ⟨?_, ih (y :: seen)⟩
      intro hmem
      exact ((mem_pyDedupAux y ys (y :: seen)).mp hmem).2 (List.mem_cons_self y seen)

theorem nodup_pyDedup (l : List String) : (pyDedup l).Nodup :=
  nodup_pyDedupAux l []

/-- C1: for every input text the matcher's output is, as a set, the
deduplicated normalized tokens (lowercased, `.`/`,` stripped, whitespace
split) intersected with the configured KeywordSet; it has no duplicates,
is empty on empty text, and is empty when no token is a keyword. -/
theorem find_keywords_spec (keywords : List String) (text : String) :
    (_find_keywords keywords text).toFinset
        = (normalizeWords text).toFinset ∩ keywords.toFinset ∧
      (_find_keywords keywords text).Nodup ∧
      _find_keywords keywords "" = [] ∧
      ((∀ w ∈ normalizeWords text, w ∉ keywords) →
        _find_keywords keywords text = []) := by
  refine ⟨?_, nodup_pyDedup _, rfl, ?_⟩
  · ext w
    simp [_find_keywords, mem_pyDedup, List.mem_filter]
  · intro h
    have : (normalizeWords text).filter (fun w => decide (w ∈ keywords)) = [] := by
      rw [List.filter_eq_nil_iff]
      intro a ha
      simpa using h a ha
    simp [_find_keywords, this, pyDedup, pyDedupAux]

/-- Witness for `find_keywords_spec` at a concrete keyword list and text. -/
theorem find_keywords_spec_witness :
    (∀ w ∈ normalizeWords "x y", w ∉ ["bet"]) ∧
      _find_keywords ["bet"] "x y" = [] :=
  ⟨by decide, (find_keywords_spec ["bet"] "x y").2.2.2 (by decide)⟩

/-- C5 counterexample: the transcript token `ab` and the configured keyword
`a.b` have equal stripped, lowercased forms, yet the matcher does not match
the token, because the keyword was only lowercased, never stripped, when the
KeywordSet was built. -/
theorem keyword_punct_symmetry_counterexample :
    stripPunct (pyLower "ab") = stripPunct (pyLower "a.b") ∧
      "ab" ∈ normalizeWords "ab" ∧
      _find_keywords (mkKeywordSet ["a.b"]) "ab" = [] := by
  decide

/-- C5 amended: membership testing lowercases both sides but strips `.` and
`,` from the transcript side only: a word is matched iff it is a normalized
(lowercased and stripped) token of the text and equals the lowercased — not
stripped — form of some configured keyword. -/
theorem keyword_membership_characterization
    (kws0 : List String) (text : String) (w : String) :
    w ∈ _find_keywords (mkKeywordSet kws0) text ↔
      w ∈ normalizeWords text ∧ ∃ k ∈ kws0, pyLower k = w := by
  simp [_find_keywords, mem_pyDedup, List.mem_filter, mkKeywordSet]

/-- C2: when every result carries a transcript (a nonempty alternatives
list, which is what makes it a TranscriptResult), the pipeline submits
exactly one broadcast per result — whether or not any keyword matched —
and the broadcast events mirror the results' is_final flags positionally. -/
theorem process_response_broadcasts_all (keywords : List String) (now : Nat)
    (results : List StreamingRecognitionResult)
    (h : ∀ r ∈ results, r.alternatives ≠ []) :
    (_process_stt_response keywords now results).length = results.length ∧
      (_process_stt_response keywords now results).map Message.is_final
        = results.map StreamingRecognitionResult.is_final := by
  induction results with
  | nil => exact ⟨rfl, rfl⟩
  | cons r rest ih =>
    have hr : r.alternatives ≠ [] := h r (List.mem_cons_self r rest)
    have hrest : ∀ x ∈ rest, x.alternatives ≠ [] :=
      fun x hx => h x (List.mem_cons_of_mem r hx)
    obtain ⟨hlen, hmap⟩ := ih hrest
    match halt : r.alternatives with
    | [] => exact absurd halt hr
    | a :: tl =>
      constructor
      · simp only [_process_stt_response, halt, List.length_cons, hlen]
      · simp only [_process_stt_response, halt, List.map_cons, hmap]

/-- Witness for `process_response_broadcasts_all`: two results, one with a
keyword match and one without, produce two broadcasts with mirrored
is_final flags. -/
theorem process_response_broadcasts_all_witness :
    (∀ r ∈ [⟨[⟨"place your bet"⟩], true⟩,
        (⟨[⟨"hello there"⟩], false⟩ : StreamingRecognitionResult)],
      r.alternatives ≠ []) ∧
      ((_process_stt_response (mkKeywordSet ["bet"]) 7
            [⟨[⟨"place your bet"⟩], true⟩, ⟨[⟨"hello there"⟩], false⟩]).length = 2 ∧
        (_process_stt_response (mkKeywordSet ["bet"]) 7
            [⟨[⟨"place your bet"⟩], true⟩, ⟨[⟨"hello there"⟩], false⟩]).map
            Message.is_final = [true, false]) :=
  ⟨by decide,
    by
      have := process_response_broadcasts_all (mkKeywordSet ["bet"]) 7
        [⟨[⟨"place your bet"⟩], true⟩, ⟨[⟨"hello there"⟩], false⟩] (by decide)
      simpa using this⟩

/-- C3 counterexample: broadcasting to clients `0` and `1` where client `0`'s
send fails leaves the active set unchanged — the failing subscriber is still
registered afterwards, so `_broadcast` does not unregister it. -/
theorem broadcast_no_unregister_counterexample :
    (_broadcast [0, 1] (fun c => c == 0) ⟨"transcription", 0, "t", [], true⟩).1
        = [0, 1] ∧
      0 ∈ (_broadcast [0, 1] (fun c => c == 0)
        ⟨"transcription", 0, "t", [], true⟩).1 := by
  decide

theorem countP_sendToClient (clients : List Nat) (fails : Nat → Bool)
    (payload : String) :
    (clients.map (sendToClient fails payload)).countP isDelivered
      = clients.countP (fun c => !fails c) := by
  rw [List.countP_map]
  refine List.countP_congr ?_
  intro c _
  by_cases h : fails c <;> simp [sendToClient, isDelivered, h, Function.comp]

/-- C3 amended: when exactly one of the N registered subscribers' sends
fails, `_broadcast` collects N-1 successful deliveries and the single
failure (gathered, not raised, so nothing propagates to the caller), and
leaves the subscriber set unchanged: the failing subscriber is not
unregistered by the broadcast — its removal happens separately in the
connection handler once its connection closes. -/
theorem broadcast_single_failure_isolated (clients : List Nat)
    (fails : Nat → Bool) (message : Message) (c0 : Nat)
    (hnd : clients.Nodup) (hc0 : c0 ∈ clients)
    (hf : ∀ c ∈ clients, fails c = true ↔ c = c0) :
    (_broadcast clients fails message).1 = clients ∧
      (_broadcast clients fails message).2.countP isDelivered
          = clients.length - 1 ∧
      (_broadcast clients fails message).2.countP (fun r => !isDelivered r)
          = 1 := by
  have hne : clients ≠ [] := List.ne_nil_of_mem hc0
  have hsnd : (_broadcast clients fails message).2
      = clients.map (sendToClient fails (dumpsMessage message)) := by
    simp [_broadcast, hne]
  have hfail : clients.countP (fun c => fails c) = 1 := by
    have h1 : clients.countP (fun c => fails c)
        = clients.countP (fun c => c == c0) := by
      refine List.countP_congr ?_
      intro c hc
      have hfc := hf c hc
      constructor
      · intro h; exact beq_iff_eq.mpr (hfc.mp h)
      · intro h; exact hfc.mpr (beq_iff_eq.mp h)
    rw [h1, ← List.count_eq_countP]
    exact List.count_eq_one_of_mem hnd hc0
  have hfail2 : (_broadcast clients fails message).2.countP (fun r => !isDelivered r)
      = 1 := by
    rw [hsnd, List.countP_map]
    have : clients.countP ((fun r => !isDelivered r) ∘
        sendToClient fails (dumpsMessage message)) = clients.countP (fun c => fails c) := by
      refine List.countP_congr ?_
      intro c _
      by_cases h : fails c <;> simp [sendToClient, isDelivered, h, Function.comp]
    rw [this, hfail]
  refine ⟨by simp [_broadcast, hne], ?_, hfail2⟩
  · rw [hsnd, countP_sendToClient]
    have hsplit := List.length_eq_countP_add_countP (fun c => fails c) (l := clients)
    have : clients.countP (fun c => !fails c)
        = clients.countP (fun c => ¬(fails c = true)) := by
      refine List.countP_congr ?_
      intro c _
      by_cases h : fails c <;> simp [h]
    rw [this]
    omega

/-- Witness for `broadcast_single_failure_isolated` with three subscribers
of which exactly client `1` fails. -/
theorem broadcast_single_failure_isolated_witness :
    ([0, 1, 2] : List Nat).Nodup ∧ 1 ∈ ([0, 1, 2] : List Nat) ∧
      ((_broadcast [0, 1, 2] (fun c => c == 1)
            ⟨"transcription", 0, "t", [], true⟩).1 = [0, 1, 2] ∧
        (_broadcast [0, 1, 2] (fun c => c == 1)
            ⟨"transcription", 0, "t", [], true⟩).2.countP isDelivered = 2 ∧
        (_broadcast [0, 1, 2] (fun c => c == 1)
            ⟨"transcription", 0, "t", [], true⟩).2.countP
            (fun r => !isDelivered r) = 1) := by
  refine ⟨by decide, by decide, ?_⟩
  have := broadcast_single_failure_isolated [0, 1, 2] (fun c => c == 1)
    ⟨"transcription", 0, "t", [], true⟩ 1 (by decide) (by decide)
    (by intro c hc; fin_cases hc <;> simp)
  simpa using this

/-- C4 counterexample: unregistering a subscriber that is not registered is
not a no-op — Python `set.remove` raises `KeyError` on a non-member. -/
theorem unregister_nonmember_counterexample :
    removeClient [] 0 = .error .keyError :=
  rfl

/-- C4 amended: registering an already-registered subscriber leaves the
active set unchanged (register is idempotent), and unregistering removes a
member; but unregistering a non-member raises `KeyError` instead of being a
no-op. -/
theorem registry_register_idempotent_unregister_keyerror
    (clients : List Nat) (c : Nat) :
    addClient (addClient clients c) c = addClient clients c ∧
      (c ∈ clients → removeClient clients c = .ok (clients.erase c)) ∧
      (c ∉ clients → removeClient clients c = .error .keyError) := by
  refine ⟨?_, ?_, ?_⟩
  · by_cases h : c ∈ clients
    · simp [addClient, h]
    · simp [addClient, h]
  · intro h; simp [removeClient, h]
  · intro h; simp [removeClient, h]

/-- Witness for `registry_register_idempotent_unregister_keyerror` at a
concrete registry. -/
theorem registry_register_idempotent_unregister_keyerror_witness :
    addClient (addClient [5] 3) 3 = addClient [5] 3 ∧
      (3 : Nat) ∉ ([5] : List Nat) ∧
      removeClient [5] 3 = .error .keyError :=
  ⟨(registry_register_idempotent_unregister_keyerror [5] 3).1, by decide,
    (registry_register_idempotent_unregister_keyerror [5] 3).2.2 (by decide)⟩

theorem audioRequests_all_audio :
    ∀ chunks, ∀ r ∈ audioRequests chunks, ∃ c, r = .audio_content c := by
  intro chunks
  induction chunks with
  | nil => intro r hr; simp [audioRequests] at hr
  | cons c rest ih =>
    intro r hr
    by_cases hc : c = []
    · simp [audioRequests, hc] at hr
    · simp only [audioRequests, if_neg hc, List.mem_cons] at hr
      rcases hr with rfl | hr
      · exact ⟨c, rfl⟩
      · exact ih r hr

/-- C6: for every request sequence of a recognition session, the first
message is the streaming configuration (16000 Hz, LINEAR16, en-US, interim
results enabled) and carries no audio, every later message carries only an
audio payload, and no audio message precedes the configuration. -/
theorem request_generator_config_first (chunks : List (List Nat)) :
    (request_generator chunks).head?
        = some (.streaming_config _get_streaming_config) ∧
      _get_streaming_config.config.sample_rate_hertz = 16000 ∧
      _get_streaming_config.config.encoding = .LINEAR16 ∧
      _get_streaming_config.config.language_code = "en-US" ∧
      _get_streaming_config.interim_results = true ∧
      (∀ r ∈ (request_generator chunks).tail, ∃ c, r = .audio_content c) :=
  ⟨rfl, rfl, rfl, rfl, rfl, fun r hr => audioRequests_all_audio chunks r hr⟩

/-- Witness for `request_generator_config_first` at a one-chunk stream. -/
theorem request_generator_config_first_witness :
    StreamingRecognizeRequest.audio_content [1] ∈ (request_generator [[1]]).tail ∧
      ∃ c, StreamingRecognizeRequest.audio_content [1]
        = StreamingRecognizeRequest.audio_content c :=
  ⟨by decide,
    (request_generator_config_first [[1]]).2.2.2.2.2 _ (by decide)⟩

/-- C10: stream-URL resolution never propagates an exception — timeout,
nonzero resolver exit and any other exception all produce `None` — and on
success (exit status 0) it returns the last line of the whitespace-stripped
resolver stdout. -/
theorem get_stream_url_spec (o : YtdlpOutcome) :
    (o = .timeout → _get_stream_url o = none) ∧
      (∀ e, o = .raised e → _get_stream_url o = none) ∧
      (∀ rc out err, o = .completed rc out err → rc ≠ 0 →
        _get_stream_url o = none) ∧
      (∀ rc out err, o = .completed rc out err → rc = 0 →
        _get_stream_url o = some (lastLine (pyStrip out))) ∧
      (∀ e, getStreamUrlBody o = .error e → _get_stream_url o = none) := by
  refine ⟨?_, ?_, ?_, ?_, ?_⟩
  · rintro rfl; rfl
  · rintro e rfl; rfl
  · rintro rc out err rfl hrc
    simp [_get_stream_url, getStreamUrlBody, hrc]
  · rintro rc out err rfl hrc
    simp [_get_stream_url, getStreamUrlBody, hrc]
  · intro e he
    cases o with
    | timeout => rfl
    | raised msg => rfl
    | completed rc out err =>
      by_cases hrc : rc = 0 <;>
        simp [getStreamUrlBody, hrc] at he

/-- Witness for `get_stream_url_spec`: a successful resolution returning the
last stdout line. -/
theorem get_stream_url_spec_witness :
    (YtdlpOutcome.completed 0 "a\nhttp://b" ""
        = .completed 0 "a\nhttp://b" "") ∧ (0 : Int) = 0 ∧
      _get_stream_url (.completed 0 "a\nhttp://b" "")
        = some (lastLine (pyStrip "a\nhttp://b")) ∧
      lastLine (pyStrip "a\nhttp://b") = "http://b" :=
  ⟨rfl, rfl,
    (get_stream_url_spec (.completed 0 "a\nhttp://b" "")).2.2.2.1
      0 "a\nhttp://b" "" rfl rfl,
    by decide⟩

theorem stop_run_flag (s : SystemState) : (stop s).1.is_running = false := by
  cases h : s.ffmpeg_process with
  | none => simp [stop, h]
  | some p => by_cases hrc : p.returncode = none <;> simp [stop, h, hrc]

theorem stop_keeps_state (s : SystemState) :
    (stop s).1.ffmpeg_process = s.ffmpeg_process ∧
      (stop s).1.clients = s.clients := by
  cases h : s.ffmpeg_process with
  | none => simp [stop, h]
  | some p => by_cases hrc : p.returncode = none <;> simp [stop, h, hrc]

theorem stop_terminates_iff (s : SystemState) :
    SysAction.terminate_ffmpeg ∈ (stop s).2 ↔
      ∃ p, s.ffmpeg_process = some p ∧ p.returncode = none := by
  cases h : s.ffmpeg_process with
  | none => simp [stop, h]
  | some p => by_cases hrc : p.returncode = none <;> simp [stop, h, hrc]

theorem stop_snd_cases (s : SystemState) :
    (stop s).2 = [] ∨ (stop s).2 = [SysAction.terminate_ffmpeg] := by
  cases h : s.ffmpeg_process with
  | none => simp [stop, h]
  | some p => by_cases hrc : p.returncode = none <;> simp [stop, h, hrc]

/-- C9 counterexample: with a started, not-yet-reaped subprocess
(`returncode` still `None`, which `terminate()` does not change), a second
consecutive `stop` performs another termination attempt — it is not the
claimed no-op. -/
theorem stop_double_terminate_counterexample :
    (stop (stop ⟨true, some ⟨none⟩, []⟩).1).2 = [SysAction.terminate_ffmpeg] :=
  rfl

/-- C9 amended: `stop` always clears the running flag, never raises, leaves
the process handle and client set untouched, and attempts termination
exactly when a subprocess exists whose returncode is `None` (so no
termination when none was started or it already exited); a second
consecutive `stop` repeats exactly the first one's (non-)termination — in
particular it re-sends termination while the subprocess remains unreaped. -/
theorem stop_spec (s : SystemState) :
    (stop s).1.is_running = false ∧
      (stop s).1.ffmpeg_process = s.ffmpeg_process ∧
      (stop s).1.clients = s.clients ∧
      (SysAction.terminate_ffmpeg ∈ (stop s).2 ↔
        ∃ p, s.ffmpeg_process = some p ∧ p.returncode = none) ∧
      (stop (stop s).1).2 = (stop s).2 := by
  refine ⟨stop_run_flag s, (stop_keeps_state s).1, (stop_keeps_state s).2,
    stop_terminates_iff s, ?_⟩
  cases h : s.ffmpeg_process with
  | none => simp [stop, h]
  | some p => by_cases hrc : p.returncode = none <;> simp [stop, h, hrc]

theorem open_session_not_in_stop (s : SystemState) :
    SysAction.open_session ∉ (stop s).2 := by
  rcases stop_snd_cases s with h | h <;> simp [h]

/-- C7 counterexample: with the running flag already set (a run in
progress) and a fully successful environment, `start` still resolves the
stream URL and opens a recognition session — a re-entrant `start` is not
rejected and does begin another acquisition/streaming run. -/
theorem start_reentrant_counterexample :
    SysAction.resolve_url ∈ (start ⟨true, none, []⟩
        ⟨.completed 0 "http://x" "", .spawned none "", .completed⟩).2 ∧
      SysAction.open_session ∈ (start ⟨true, none, []⟩
        ⟨.completed 0 "http://x" "", .spawned none "", .completed⟩).2 := by
  decide

/-- C7 amended: `start` checks no pipeline state at all: it unconditionally
sets the running flag and proceeds, so a call on a system that is already
running (or in any other prior state) behaves exactly like a fresh call and
always begins acquisition by resolving the stream URL — at most one active
run is not enforced by `start`. -/
theorem start_ignores_prior_state (s : SystemState) (env : StartEnv) (b : Bool) :
    start s env = start { s with is_running := b } env ∧
      SysAction.resolve_url ∈ (start s env).2 := by
  constructor
  · rfl
  · unfold start startBody
    cases hurl : _get_stream_url env.ytdlp with
    | none => simp
    | some u =>
      cases hff : _start_ffmpeg_process { s with is_running := true } env.ffmpeg with
      | error pe =>
        obtain ⟨e, s2⟩ := pe
        simp [hff]
      | ok s2 => cases env.stt <;> simp [hff]

/-- C8: when audio acquisition fails, `start` never opens a recognition
session, logs the error, clears the running flag during cleanup, and leaks
no producer subprocess: any process handle still held at the end has either
already exited or received a termination attempt. -/
theorem start_acquisition_failure_cleanup (s : SystemState) (env : StartEnv)
    (h : acquisitionFails env) :
    SysAction.open_session ∉ (start s env).2 ∧
      (∃ e, SysAction.log_error e ∈ (start s env).2) ∧
      (start s env).1.is_running = false ∧
      (∀ p, (start s env).1.ffmpeg_process = some p →
        p.returncode ≠ none ∨ SysAction.terminate_ffmpeg ∈ (start s env).2) := by
  by_cases hurl : _get_stream_url env.ytdlp = none
  · have hstart : start s env = ((stop { s with is_running := true }).1,
        SysAction.serve :: [SysAction.resolve_url]
          ++ [SysAction.log_error (.runtimeError "Failed to get stream URL.")]
          ++ (stop { s with is_running := true }).2
          ++ [SysAction.close_server]) := by
      simp [start, startBody, hurl]
    rw [hstart]
    refine ⟨?_, ⟨PyError.runtimeError "Failed to get stream URL.", by simp⟩,
      stop_run_flag _, ?_⟩
    · have := open_session_not_in_stop { s with is_running := true }
      simp [this]
    · intro p hp
      simp only at hp
      by_cases hrc : p.returncode = none
      · refine Or.inr ?_
        have hmem : SysAction.terminate_ffmpeg
            ∈ (stop { s with is_running := true }).2 :=
          (stop_terminates_iff _).mpr
            ⟨p, by rw [← (stop_keeps_state _).1]; exact hp, hrc⟩
        simp [hmem]
      · exact Or.inl hrc
  · obtain ⟨u, hu⟩ := Option.ne_none_iff_exists'.mp hurl
    rcases h with h | ⟨e, hff⟩ | ⟨rc, err, hff⟩
    · exact absurd h hurl
    · have hstart : start s env = ((stop { s with is_running := true }).1,
          SysAction.serve :: [SysAction.resolve_url, SysAction.spawn_ffmpeg]
            ++ [SysAction.log_error (.other e)]
            ++ (stop { s with is_running := true }).2
            ++ [SysAction.close_server]) := by
        simp [start, startBody, hu, _start_ffmpeg_process, hff]
      rw [hstart]
      refine ⟨?_, ⟨PyError.other e, by simp⟩, stop_run_flag _, ?_⟩
      · have := open_session_not_in_stop { s with is_running := true }
        simp [this]
      · intro p hp
        simp only at hp
        by_cases hrc : p.returncode = none
        · refine Or.inr ?_
          have hmem : SysAction.terminate_ffmpeg
              ∈ (stop { s with is_running := true }).2 :=
            (stop_terminates_iff _).mpr
              ⟨p, by rw [← (stop_keeps_state _).1]; exact hp, hrc⟩
          simp [hmem]
        · exact Or.inl hrc
    · have hstart : start s env
          = ((stop ⟨true, some ⟨some rc⟩, s.clients⟩).1,
            SysAction.serve :: [SysAction.resolve_url, SysAction.spawn_ffmpeg]
              ++ [SysAction.log_error
                  (.runtimeError ("FFmpeg failed to start: " ++ err))]
              ++ (stop ⟨true, some ⟨some rc⟩, s.clients⟩).2
              ++ [SysAction.close_server]) := by
        simp [start, startBody, hu, _start_ffmpeg_process, hff]
      rw [hstart]
      refine ⟨?_,
        ⟨PyError.runtimeError ("FFmpeg failed to start: " ++ err), by simp⟩,
        stop_run_flag _, ?_⟩
      · have := open_session_not_in_stop ⟨true, some ⟨some rc⟩, s.clients⟩
        simp [this]
      · intro p hp
        have hproc : p = ⟨some rc⟩ := by
          have hk := (stop_keeps_state ⟨true, some ⟨some rc⟩, s.clients⟩).1
          rw [hk] at hp
          simpa using hp.symm
        exact Or.inl (by simp [hproc])

/-- Witness for `start_acquisition_failure_cleanup`: the producer exits
immediately after the grace period. -/
theorem start_acquisition_failure_cleanup_witness :
    acquisitionFails ⟨.completed 0 "u" "", .spawned (some 1) "boom", .completed⟩ ∧
      SysAction.open_session ∉ (start ⟨false, none, []⟩
        ⟨.completed 0 "u" "", .spawned (some 1) "boom", .completed⟩).2 :=
  ⟨Or.inr (Or.inr ⟨1, "boom", rfl⟩),
    (start_acquisition_failure_cleanup ⟨false, none, []⟩
      ⟨.completed 0 "u" "", .spawned (some 1) "boom", .completed⟩
      (Or.inr (Or.inr ⟨1, "boom", rfl⟩))).1⟩
